import Mathlib

/-!
Verification of the "Hugging" single-page application (src/App.tsx).

JavaScript strings are modelled as `List Char`; file bytes as `List Nat`
(each byte `< 256`); nullable values as `Option`; promise rejection as
`Except`.  The React state variables of the `App` component form the
record `AppState`, and the event handlers become pure state transformers.
The browser collaborators (`FileReader.readAsDataURL`,
`URL.createObjectURL`, the Gemini client) are external to the repository
and enter as parameters or, where the claims need their output shape, as
definitions modelled from the specification.
-/

namespace Hugging

/-- The standard base64 alphabet, used to model the base64 output of the
`FileReader.readAsDataURL` browser call. -/
def b64Alphabet : List Char :=
  "ABCDEFGHIJKLMNOPQRSTUVWXYZabcdefghijklmnopqrstuvwxyz0123456789+/".toList

/-- The base64 digit for a 6-bit value. -/
def b64Char (n : Nat) : Char := b64Alphabet.getD n 'A'

/-- The 6-bit value of a base64 digit. -/
def b64Index (c : Char) : Nat := b64Alphabet.indexOf c

/-- Standard base64 encoding of a byte sequence, three bytes at a time,
with padding. -/
def base64Encode : List Nat → List Char
  | [] => []
  | [a] => [b64Char (a / 4), b64Char (a % 4 * 16), '=', '=']
  | [a, b] => [b64Char (a / 4), b64Char (a % 4 * 16 + b / 16), b64Char (b % 16 * 4), '=']
  | a :: b :: c :: rest =>
      b64Char (a / 4) :: b64Char (a % 4 * 16 + b / 16) :: b64Char (b % 16 * 4 + c / 64) ::
        b64Char (c % 64) :: base64Encode rest

/-- Standard base64 decoding, four digits at a time, honouring padding. -/
def base64Decode : List Char → List Nat
  | c1 :: c2 :: c3 :: c4 :: rest =>
      if c3 = '=' then [b64Index c1 * 4 + b64Index c2 / 16]
      else if c4 = '=' then
        [b64Index c1 * 4 + b64Index c2 / 16, b64Index c2 % 16 * 16 + b64Index c3 / 4]
      else
        (b64Index c1 * 4 + b64Index c2 / 16) :: (b64Index c2 % 16 * 16 + b64Index c3 / 4) ::
          (b64Index c3 % 4 * 64 + b64Index c4) :: base64Decode rest
  | _ => []

/-- The payload type produced by `fileToBase64` (src/types.ts, fields used in
src/App.tsx: `mimeType` and `data`). -/
structure ImageData where
  mimeType : List Char
  data : List Char
deriving DecidableEq

/-- Model of the JavaScript split with separator `","` used on line 82 of
src/App.tsx: splits at every comma, keeping empty segments. -/
def splitOnComma : List Char → List (List Char)
  | [] => [[]]
  | c :: rest =>
      if c = ',' then [] :: splitOnComma rest
      else
        match splitOnComma rest with
        | s :: ss => (c :: s) :: ss
        | [] => [[c]]

/-- The lazy body of the regular expression `:(.*?);` at a fixed start: the
characters between the current position and the first following `;`, failing
when a newline (which `.` never matches) or the end of input comes first. -/
def lazyCapture : List Char → Option (List Char)
  | [] => none
  | c :: rest =>
      if c = ';' then some []
      else if c = '\n' then none
      else (lazyCapture rest).map (fun s => c :: s)

/-- Model of the JavaScript match against `:(.*?);` on line 87 of
src/App.tsx, returning the first capture group of the leftmost match: at each
position in turn, a `:` followed by the lazily matched characters up to the
next `;`. -/
def findMimeMatch : List Char → Option (List Char)
  | [] => none
  | c :: rest =>
      if c = ':' then
        match lazyCapture rest with
        | some cap => some cap
        | none => findMimeMatch rest
      else findMimeMatch rest

/-- The `reader.onload` body of `fileToBase64` (src/App.tsx lines 80–94),
applied to the string produced by the file read: split at commas, destructure
the first two segments as header and data, reject falsy (empty or missing)
segments, extract the MIME type from the header with the `:(.*?);` pattern,
reject a missing match or empty capture, and otherwise resolve
`mimeType` and `data`. -/
def fileToBase64OnLoad (result : List Char) : Except String ImageData :=
  match splitOnComma result with
  | header :: data :: _ =>
      if header = [] ∨ data = [] then Except.error "Invalid file format"
      else
        match findMimeMatch header with
        | some cap =>
            if cap = [] then Except.error "Could not determine MIME type"
            else Except.ok ⟨cap, data⟩
        | none => Except.error "Could not determine MIME type"
  | _ => Except.error "Invalid file format"

/-- A user-selected file: its MIME type metadata and raw bytes. -/
structure File where
  mimeType : List Char
  bytes : List Nat
deriving DecidableEq

/-- Modelled from the spec: the browser `FileReader.readAsDataURL` call (an
external collaborator, not code of this repository) "reads the entire byte
content of the file" and "produces a data-URI-style string"
`data:<mime>;base64,<base64 bytes>`. -/
def readAsDataURL (f : File) : List Char :=
  "data:".toList ++ f.mimeType ++ ";base64,".toList ++ base64Encode f.bytes

/-- Model of `fileToBase64` (src/App.tsx lines 76–97): read the file as a
data URL and run the `onload` parsing on the resulting string. -/
def fileToBase64 (f : File) : Except String ImageData :=
  fileToBase64OnLoad (readAsDataURL f)

/-- Whether an `Except` computation rejected. -/
def isErr {ε α : Type} : Except ε α → Bool
  | Except.error _ => true
  | Except.ok _ => false

/-- The encoder failure condition as the specification words it: the read
string has no comma-separated header/data split (fewer than two segments,
or an empty header, or an empty data segment), or the header holds no
recognizable `:<mime>;` pattern with a non-empty MIME type. -/
def specEncodeFails (result : List Char) : Bool :=
  let parts := splitOnComma result
  decide (parts.length < 2) || decide (parts.getD 0 [] = []) ||
    decide (parts.getD 1 [] = []) ||
    (match findMimeMatch (parts.getD 0 []) with
     | none => true
     | some cap => decide (cap = []))

/-- The React state variables of the `App` component (src/App.tsx
lines 63–69). -/
structure AppState where
  childPhoto : Option File
  adultPhoto : Option File
  childPhotoPreview : Option String
  adultPhotoPreview : Option String
  generatedImage : Option String
  isLoading : Bool
  error : Option String
deriving DecidableEq

/-- The initial state of the component: every `useState` starts at
`null`/`false`. -/
def initState : AppState :=
  { childPhoto := none, adultPhoto := none, childPhotoPreview := none,
    adultPhotoPreview := none, generatedImage := none, isLoading := false,
    error := none }

/-- Which of the two uploaders an event belongs to. -/
inductive Which where
  | child : Which
  | adult : Which
deriving DecidableEq

/-- The validation message set when a photo is missing (src/App.tsx
line 101). -/
def validationMsg : String := "Please upload both photos before generating."

/-- The message set when the try block of an attempt throws (src/App.tsx
line 117). -/
def genFailMsg : String := "Failed to generate the image. Please try again."

/-- Model of `handleFileChange` (src/App.tsx lines 71–74), instantiated for
one of the two uploaders: store the file and its object-URL preview.
`objectURL` models the browser `URL.createObjectURL` call. -/
def handleFileChange (objectURL : File → String) (w : Which) (f : File)
    (s : AppState) : AppState :=
  match w with
  | Which.child =>
      { s with childPhoto := some f, childPhotoPreview := some (objectURL f) }
  | Which.adult =>
      { s with adultPhoto := some f, adultPhotoPreview := some (objectURL f) }

/-- Model of `handleInputChange` of `ImageUploader` (src/App.tsx
lines 30–34): forward the first selected file if one exists, otherwise do
nothing. -/
def handleInputChange (objectURL : File → String) (w : Which)
    (files : List File) (s : AppState) : AppState :=
  match files with
  | f :: _ => handleFileChange objectURL w f s
  | [] => s

/-- Observable events of one run of `handleGenerateClick`: how many times the
encoder (`fileToBase64`) was awaited, how many times the generation client
(`generateHuggingImage`) was awaited, and whether the loading state was
entered. -/
structure GenTrace where
  encoderCalls : Nat
  clientCalls : Nat
  enteredPending : Bool
deriving DecidableEq

/-- The state entered by the synchronous prefix of `handleGenerateClick` after
validation passes (src/App.tsx lines 105–107): loading set, previous error and
previous result cleared. -/
def beginGenerate (s : AppState) : AppState :=
  { s with isLoading := true, error := none, generatedImage := none }

/-- Model of `handleGenerateClick` (src/App.tsx lines 99–121) run to
completion, as a function of the encoder and the generation client (both may
reject, modelled by `Except`).  Returns the final state together with the
trace of the run. -/
def handleGenerateClick (enc : File → Except String ImageData)
    (cl : ImageData → ImageData → Except String String)
    (s : AppState) : AppState × GenTrace :=
  match s.childPhoto, s.adultPhoto with
  | some child, some adult =>
      let s1 := beginGenerate s
      match enc child with
      | Except.error _ =>
          ({ s1 with isLoading := false, error := some genFailMsg }, ⟨1, 0, true⟩)
      | Except.ok childPhotoData =>
          match enc adult with
          | Except.error _ =>
              ({ s1 with isLoading := false, error := some genFailMsg }, ⟨2, 0, true⟩)
          | Except.ok adultPhotoData =>
              match cl childPhotoData adultPhotoData with
              | Except.error _ =>
                  ({ s1 with isLoading := false, error := some genFailMsg }, ⟨2, 1, true⟩)
              | Except.ok imageUrl =>
                  ({ s1 with isLoading := false, generatedImage := some imageUrl },
                    ⟨2, 1, true⟩)
  | _, _ => ({ s with error := some validationMsg }, ⟨0, 0, false⟩)

/-- The `disabled` condition of the generate button (src/App.tsx line 141). -/
def generateButtonDisabled (s : AppState) : Bool :=
  s.childPhoto.isNone || s.adultPhoto.isNone || s.isLoading

/-- One component shown in the result panel. -/
inductive Display where
  | spinner : Display
  | errorMsg : String → Display
  | image : String → Display
  | placeholder : Display
deriving DecidableEq

/-- The result panel (src/App.tsx lines 151–164): the spinner when loading,
the error text when an error is set, the generated image when neither is set
and a result exists, and the placeholder otherwise. -/
def render (s : AppState) : List Display :=
  (if s.isLoading then [Display.spinner] else []) ++
  (match s.error with
   | some m => [Display.errorMsg m]
   | none => []) ++
  (match s.isLoading, s.error, s.generatedImage with
   | false, none, some url => [Display.image url]
   | _, _, _ => []) ++
  (match s.isLoading, s.error, s.generatedImage with
   | false, none, none => [Display.placeholder]
   | _, _, _ => [])

/-- The user-driven transitions of the component.  A file selection fires the
change handler of the uploader; clicking the enabled generate button enters
the loading state (`beginGenerate`); a pending attempt later settles on the
event loop, either storing a result or storing the failure message, and
clears the loading flag (src/App.tsx lines 109–120). -/
inductive Step (objectURL : File → String) : AppState → AppState → Prop
  | select (s : AppState) (w : Which) (files : List File) :
      Step objectURL s (handleInputChange objectURL w files s)
  | generateBegin (s : AppState) :
      generateButtonDisabled s = false →
      Step objectURL s (beginGenerate s)
  | finishOk (s : AppState) (url : String) :
      s.isLoading = true →
      Step objectURL s { s with isLoading := false, generatedImage := some url }
  | finishErr (s : AppState) :
      s.isLoading = true →
      Step objectURL s { s with isLoading := false, error := some genFailMsg }

/-- States reachable from the initial state through user events. -/
def Reachable (objectURL : File → String) (s : AppState) : Prop :=
  Relation.ReflTransGen (Step objectURL) initState s

/-- A concrete PNG-typed file, used as a witness input. -/
def fileA : File := ⟨"image/png".toList, [137, 80, 78, 71]⟩

/-- A concrete JPEG-typed file, used as a witness input. -/
def fileB : File := ⟨"image/jpeg".toList, [255, 216, 255, 224]⟩

/-- A state with both photos selected, used as a witness input. -/
def bothSelectedState : AppState :=
  { childPhoto := some fileA, adultPhoto := some fileB,
    childPhotoPreview := some "blob:child", adultPhotoPreview := some "blob:adult",
    generatedImage := none, isLoading := false, error := none }

/-- A state in the Succeeded lifecycle stage, used as a concrete input. -/
def succeededState : AppState :=
  { bothSelectedState with generatedImage := some "data:image/png;base64,AAA=" }

/-- A state in the Failed lifecycle stage, used as a concrete input. -/
def failedState : AppState :=
  { bothSelectedState with error := some genFailMsg }

/-- An encoder stub that always resolves. -/
def encStub : File → Except String ImageData :=
  fun f => Except.ok ⟨f.mimeType, "QUJD".toList⟩

/-- An encoder stub that always rejects. -/
def encErrStub : File → Except String ImageData :=
  fun _ => Except.error "read error"

/-- A generation client stub that always resolves. -/
def clOkStub : ImageData → ImageData → Except String String :=
  fun _ _ => Except.ok "data:image/png;base64,AAA="

/-- A generation client stub that always rejects. -/
def clErrStub : ImageData → ImageData → Except String String :=
  fun _ _ => Except.error "network"

/-- An object-URL stub. -/
def objectURLStub : File → String := fun _ => "blob:new"

theorem b64Index_b64Char : ∀ n < 64, b64Index (b64Char n) = n := by decide

theorem b64Char_ne_pad : ∀ n < 64, b64Char n ≠ '=' := by decide

theorem b64Char_ne_comma : ∀ n < 64, b64Char n ≠ ',' := by decide

/-- Decoding inverts encoding on byte sequences. -/
theorem base64Decode_base64Encode :
    ∀ (l : List Nat), (∀ x ∈ l, x < 256) → base64Decode (base64Encode l) = l
  | [], _ => by simp [base64Encode, base64Decode]
  | [a], h => by
      have ha : a < 256 := h a (by simp)
      have e1 := b64Index_b64Char (a / 4) (by omega)
      have e2 := b64Index_b64Char (a % 4 * 16) (by omega)
      simp [base64Encode, base64Decode, e1, e2]
      omega
  | [a, b], h => by
      have ha : a < 256 := h a (by simp)
      have hb : b < 256 := h b (by simp)
      have e1 := b64Index_b64Char (a / 4) (by omega)
      have e2 := b64Index_b64Char (a % 4 * 16 + b / 16) (by omega)
      have e3 := b64Index_b64Char (b % 16 * 4) (by omega)
      have n3 := b64Char_ne_pad (b % 16 * 4) (by omega)
      simp [base64Encode, base64Decode, e1, e2, e3, n3]
      omega
  | a :: b :: c :: rest, h => by
      have ha : a < 256 := h a (by simp)
      have hb : b < 256 := h b (by simp)
      have hc : c < 256 := h c (by simp)
      have ih := base64Decode_base64Encode rest (fun x hx => h x (by simp [hx]))
      have e1 := b64Index_b64Char (a / 4) (by omega)
      have e2 := b64Index_b64Char (a % 4 * 16 + b / 16) (by omega)
      have e3 := b64Index_b64Char (b % 16 * 4 + c / 64) (by omega)
      have e4 := b64Index_b64Char (c % 64) (by omega)
      have n3 := b64Char_ne_pad (b % 16 * 4 + c / 64) (by omega)
      have n4 := b64Char_ne_pad (c % 64) (by omega)
      simp [base64Encode, base64Decode, e1, e2, e3, e4, n3, n4, ih]
      omega

/-- Base64 output never contains a comma. -/
theorem comma_not_mem_base64Encode :
    ∀ (l : List Nat), (∀ x ∈ l, x < 256) → ',' ∉ base64Encode l
  | [], _ => by simp [base64Encode]
  | [a], h => by
      have ha : a < 256 := h a (by simp)
      simp only [base64Encode, List.mem_cons, List.not_mem_nil, or_false]
      push_neg
      refine ⟨?_, ?_, by decide, by decide⟩
      · exact fun hcontra => (b64Char_ne_comma _ (by omega)) hcontra.symm
      · exact fun hcontra => (b64Char_ne_comma _ (by omega)) hcontra.symm
  | [a, b], h => by
      have ha : a < 256 := h a (by simp)
      have hb : b < 256 := h b (by simp)
      simp only [base64Encode, List.mem_cons, List.not_mem_nil, or_false]
      push_neg
      refine ⟨?_, ?_, ?_, by decide⟩
      · exact fun hcontra => (b64Char_ne_comma _ (by omega)) hcontra.symm
      · exact fun hcontra => (b64Char_ne_comma _ (by omega)) hcontra.symm
      · exact fun hcontra => (b64Char_ne_comma _ (by omega)) hcontra.symm
  | a :: b :: c :: rest, h => by
      have ha : a < 256 := h a (by simp)
      have hb : b < 256 := h b (by simp)
      have hc : c < 256 := h c (by simp)
      have ih := comma_not_mem_base64Encode rest (fun x hx => h x (by simp [hx]))
      simp only [base64Encode, List.mem_cons, not_or]
      refine ⟨?_, ?_, ?_, ?_, ih⟩
      · exact fun hcontra => (b64Char_ne_comma _ (by omega)) hcontra.symm
      · exact fun hcontra => (b64Char_ne_comma _ (by omega)) hcontra.symm
      · exact fun hcontra => (b64Char_ne_comma _ (by omega)) hcontra.symm
      · exact fun hcontra => (b64Char_ne_comma _ (by omega)) hcontra.symm

/-- A nonempty byte sequence has nonempty base64 output. -/
theorem base64Encode_ne_nil : ∀ (l : List Nat), l ≠ [] → base64Encode l ≠ []
  | [], h => absurd rfl h
  | [_], _ => by simp [base64Encode]
  | [_, _], _ => by simp [base64Encode]
  | _ :: _ :: _ :: _, _ => by simp [base64Encode]

theorem splitOnComma_no_comma (ys : List Char) (h : ',' ∉ ys) :
    splitOnComma ys = [ys] := by
  induction ys with
  | nil => rfl
  | cons c t ih =>
      simp only [List.mem_cons, not_or] at h
      have hc : ¬(c = ',') := fun hcontra => h.1 hcontra.symm
      simp only [splitOnComma, if_neg hc, ih h.2]

theorem splitOnComma_append (xs ys : List Char) (h : ',' ∉ xs) :
    splitOnComma (xs ++ ',' :: ys) = xs :: splitOnComma ys := by
  induction xs with
  | nil => simp [splitOnComma]
  | cons c t ih =>
      simp only [List.mem_cons, not_or] at h
      have hc : ¬(c = ',') := fun hcontra => h.1 hcontra.symm
      simp only [List.cons_append, splitOnComma, if_neg hc, List.append_eq]
      rw [ih h.2]

theorem lazyCapture_append (mime rest : List Char)
    (h : ∀ c ∈ mime, c ≠ ';' ∧ c ≠ '\n') :
    lazyCapture (mime ++ ';' :: rest) = some mime := by
  induction mime with
  | nil => simp [lazyCapture]
  | cons c t ih =>
      have hc := h c (by simp)
      simp only [List.cons_append, lazyCapture, if_neg hc.1, if_neg hc.2, List.append_eq]
      rw [ih (fun x hx => h x (by simp [hx]))]
      rfl

theorem findMimeMatch_cons_ne (c : Char) (l : List Char) (h : ¬(c = ':')) :
    findMimeMatch (c :: l) = findMimeMatch l := by
  simp [findMimeMatch, h]

theorem findMimeMatch_colon_some (l cap : List Char) (h : lazyCapture l = some cap) :
    findMimeMatch (':' :: l) = some cap := by
  simp [findMimeMatch, h]

theorem findMimeMatch_data_header (mime rest : List Char)
    (h : ∀ c ∈ mime, c ≠ ';' ∧ c ≠ '\n') :
    findMimeMatch ("data:".toList ++ (mime ++ ';' :: rest)) = some mime := by
  have hd : "data:".toList ++ (mime ++ ';' :: rest) =
      'd' :: 'a' :: 't' :: 'a' :: ':' :: (mime ++ ';' :: rest) := rfl
  rw [hd, findMimeMatch_cons_ne _ _ (by decide), findMimeMatch_cons_ne _ _ (by decide),
    findMimeMatch_cons_ne _ _ (by decide), findMimeMatch_cons_ne _ _ (by decide),
    findMimeMatch_colon_some _ _ (lazyCapture_append mime rest h)]

/-- The `onload` parser succeeds on the expected shape: a first comma segment
(header) and second comma segment (data), both nonempty, with a nonempty MIME
capture in the header. -/
theorem fileToBase64OnLoad_ok (result header data : List Char)
    (t : List (List Char)) (cap : List Char)
    (hs : splitOnComma result = header :: data :: t)
    (hh : header ≠ []) (hd : data ≠ [])
    (hm : findMimeMatch header = some cap) (hc : cap ≠ []) :
    fileToBase64OnLoad result = Except.ok ⟨cap, data⟩ := by
  rw [fileToBase64OnLoad.eq_def, hs]
  simp [hh, hd, hm, hc]

/-- On valid inputs the whole encoder succeeds: the extracted MIME type is the
MIME type of the file and the payload is the base64 encoding of its bytes. -/
theorem fileToBase64_ok (f : File)
    (hb : f.bytes ≠ []) (hw : ∀ x ∈ f.bytes, x < 256)
    (hm : f.mimeType ≠ []) (hmem : ∀ c ∈ f.mimeType, c ≠ ',' ∧ c ≠ ';' ∧ c ≠ '\n') :
    fileToBase64 f = Except.ok ⟨f.mimeType, base64Encode f.bytes⟩ := by
  have hsplit : splitOnComma (readAsDataURL f) =
      ("data:".toList ++ f.mimeType ++ ";base64".toList) :: [base64Encode f.bytes] := by
    have hshape : readAsDataURL f =
        ("data:".toList ++ f.mimeType ++ ";base64".toList) ++ ',' :: base64Encode f.bytes := by
      simp [readAsDataURL, List.append_assoc]
    rw [hshape, splitOnComma_append, splitOnComma_no_comma _ (comma_not_mem_base64Encode _ hw)]
    intro hcomma
    simp only [List.mem_append] at hcomma
    rcases hcomma with (hcomma | hcomma) | hcomma
    · revert hcomma
      decide
    · exact ((hmem _ hcomma).1 rfl).elim
    · revert hcomma
      decide
  have hmime : findMimeMatch ("data:".toList ++ f.mimeType ++ ";base64".toList) =
      some f.mimeType := by
    have hsemi : (";base64".toList : List Char) = ';' :: "base64".toList := rfl
    have hshape : "data:".toList ++ f.mimeType ++ ";base64".toList =
        "data:".toList ++ (f.mimeType ++ ';' :: "base64".toList) := by
      rw [List.append_assoc, hsemi]
    rw [hshape, findMimeMatch_data_header _ _
      (fun c hc => ⟨(hmem c hc).2.1, (hmem c hc).2.2⟩)]
  have hdne : base64Encode f.bytes ≠ [] := base64Encode_ne_nil _ hb
  have hhne : ("data:".toList ++ f.mimeType ++ ";base64".toList : List Char) ≠ [] := by
    simp
  exact fileToBase64OnLoad_ok _ _ _ _ _ hsplit hhne hdne hmime hm

/-- Claim C4: the onload parser rejects exactly when the read string has no
comma-separated header/data split (including an empty or malformed result or
an empty data segment) or the header has no recognizable MIME pattern with a
non-empty MIME type; it never constructs an `ImageData` with an empty MIME
type or an empty payload. -/
theorem fileToBase64OnLoad_error_charact (result : List Char) :
    isErr (fileToBase64OnLoad result) = specEncodeFails result ∧
    Except.map ImageData.mimeType (fileToBase64OnLoad result) ≠ Except.ok [] ∧
    Except.map ImageData.data (fileToBase64OnLoad result) ≠ Except.ok [] := by
  rw [fileToBase64OnLoad.eq_def]
  simp only [specEncodeFails]
  rcases hs : splitOnComma result with _ | ⟨h1, t1⟩
  · simp [hs, isErr, Except.map]
  rcases t1 with _ | ⟨h2, t2⟩
  · simp [hs, isErr, Except.map]
  have hlen : ¬((h1 :: h2 :: t2).length < 2) := by
    simp only [List.length_cons]
    omega
  by_cases hh1 : h1 = []
  · simp [hs, hh1, isErr, Except.map]
  by_cases hh2 : h2 = []
  · simp [hs, hh1, hh2, isErr, Except.map]
  rcases hm : findMimeMatch h1 with _ | cap
  · simp [hs, hlen, hh1, hh2, hm, isErr, Except.map]
  by_cases hcap : cap = []
  · simp [hs, hlen, hh1, hh2, hm, hcap, isErr, Except.map]
  · simp [hs, hlen, hh1, hh2, hm, hcap, isErr, Except.map]

/-- Claim C5 counterexample: on a read string with a second comma, the stored
payload is only the segment between the first and second commas, not the
entire remainder after the first comma. -/
theorem split_payload_cex :
    fileToBase64OnLoad ("data:image/png;base64,AB,CD".toList) =
      Except.ok ⟨"image/png".toList, "AB".toList⟩ ∧
    ("AB".toList : List Char) ≠ "AB,CD".toList := by
  exact ⟨rfl, by decide⟩

/-- Claim C5 (amended): the read string is split at every comma; the MIME type
comes from the segment before the first comma and the payload is the second
segment — the characters between the first and second commas (the entire
remainder only when no second comma exists). -/
theorem split_first_two_segments (result header data : List Char)
    (t : List (List Char)) (cap : List Char)
    (hs : splitOnComma result = header :: data :: t)
    (hh : header ≠ []) (hd : data ≠ [])
    (hm : findMimeMatch header = some cap) (hc : cap ≠ []) :
    fileToBase64OnLoad result = Except.ok ⟨cap, data⟩ :=
  fileToBase64OnLoad_ok result header data t cap hs hh hd hm hc

/-- Claim C5 (amended) witness at a concrete two-comma input. -/
theorem split_first_two_segments_witness :
    fileToBase64OnLoad ("data:image/png;base64,AB,CD".toList) =
      Except.ok ⟨"image/png".toList, "AB".toList⟩ :=
  split_first_two_segments "data:image/png;base64,AB,CD".toList
    "data:image/png;base64".toList "AB".toList ["CD".toList] "image/png".toList
    (by decide) (by decide) (by decide) (by decide) (by decide)

/-- Claim C6: for every valid binary input (nonempty bytes, each below 256,
with a sensible nonempty MIME type), the encoder succeeds and its payload,
base64-decoded, reproduces the original bytes exactly. -/
theorem encode_roundtrip (f : File)
    (hb : f.bytes ≠ []) (hw : ∀ x ∈ f.bytes, x < 256)
    (hm : f.mimeType ≠ [])
    (hmem : ∀ c ∈ f.mimeType, c ≠ ',' ∧ c ≠ ';' ∧ c ≠ '\n') :
    fileToBase64 f = Except.ok ⟨f.mimeType, base64Encode f.bytes⟩ ∧
    base64Decode (base64Encode f.bytes) = f.bytes :=
  ⟨fileToBase64_ok f hb hw hm hmem, base64Decode_base64Encode f.bytes hw⟩

/-- Claim C6 witness at a concrete PNG-typed file. -/
theorem encode_roundtrip_witness :
    fileToBase64 fileA = Except.ok ⟨fileA.mimeType, base64Encode fileA.bytes⟩ ∧
    base64Decode (base64Encode fileA.bytes) = fileA.bytes :=
  encode_roundtrip fileA (by decide) (by decide) (by decide) (by decide)

/-- Claim C1: a generation trigger with a missing photo only sets the
validation message — the rest of the state is untouched, the encoder and the
client are never awaited, and the loading state is never entered. -/
theorem missing_photo_validation (enc : File → Except String ImageData)
    (cl : ImageData → ImageData → Except String String) (s : AppState)
    (h : s.childPhoto = none ∨ s.adultPhoto = none) :
    handleGenerateClick enc cl s =
      ({ s with error := some validationMsg }, ⟨0, 0, false⟩) := by
  rcases h with h | h
  · cases ha : s.adultPhoto <;> simp [handleGenerateClick, h, ha]
  · cases hc : s.childPhoto <;> simp [handleGenerateClick, h, hc]

/-- Claim C1 witness at the initial state. -/
theorem missing_photo_validation_witness :
    handleGenerateClick encStub clOkStub initState =
      ({ initState with error := some validationMsg }, ⟨0, 0, false⟩) :=
  missing_photo_validation encStub clOkStub initState (Or.inl rfl)

/-- Claim C2: with both photos selected, successful encodings, and a client
resolving with `v`, the attempt ends with loading cleared, no error, the
stored reference equal to `v`, and exactly the image `v` displayed. -/
theorem generate_success (enc : File → Except String ImageData)
    (cl : ImageData → ImageData → Except String String) (s : AppState)
    (child adult : File) (cd ad : ImageData) (v : String)
    (hc : s.childPhoto = some child) (ha : s.adultPhoto = some adult)
    (hec : enc child = Except.ok cd) (hea : enc adult = Except.ok ad)
    (hcl : cl cd ad = Except.ok v) :
    (handleGenerateClick enc cl s).1.isLoading = false ∧
    (handleGenerateClick enc cl s).1.error = none ∧
    (handleGenerateClick enc cl s).1.generatedImage = some v ∧
    render (handleGenerateClick enc cl s).1 = [Display.image v] := by
  simp [handleGenerateClick, hc, ha, hec, hea, hcl, beginGenerate, render]

/-- Claim C2 witness with resolving stubs. -/
theorem generate_success_witness :
    (handleGenerateClick encStub clOkStub bothSelectedState).1.isLoading = false ∧
    (handleGenerateClick encStub clOkStub bothSelectedState).1.error = none ∧
    (handleGenerateClick encStub clOkStub bothSelectedState).1.generatedImage =
      some "data:image/png;base64,AAA=" ∧
    render (handleGenerateClick encStub clOkStub bothSelectedState).1 =
      [Display.image "data:image/png;base64,AAA="] :=
  generate_success encStub clOkStub bothSelectedState fileA fileB
    ⟨"image/png".toList, "QUJD".toList⟩ ⟨"image/jpeg".toList, "QUJD".toList⟩
    "data:image/png;base64,AAA=" rfl rfl rfl rfl rfl

/-- Claim C3: with both photos selected and a rejecting client, the attempt
ends Failed with the fixed non-empty failure message, no stored reference,
loading cleared, and the generate button enabled again. -/
theorem generate_client_failure (enc : File → Except String ImageData)
    (cl : ImageData → ImageData → Except String String) (s : AppState)
    (child adult : File) (cd ad : ImageData) (e : String)
    (hc : s.childPhoto = some child) (ha : s.adultPhoto = some adult)
    (hec : enc child = Except.ok cd) (hea : enc adult = Except.ok ad)
    (hcl : cl cd ad = Except.error e) :
    (handleGenerateClick enc cl s).1.error = some genFailMsg ∧
    genFailMsg ≠ "" ∧
    (handleGenerateClick enc cl s).1.generatedImage = none ∧
    (handleGenerateClick enc cl s).1.isLoading = false ∧
    generateButtonDisabled (handleGenerateClick enc cl s).1 = false ∧
    render (handleGenerateClick enc cl s).1 = [Display.errorMsg genFailMsg] := by
  refine ⟨?_, by decide, ?_, ?_, ?_, ?_⟩ <;>
    simp [handleGenerateClick, hc, ha, hec, hea, hcl, beginGenerate, render,
      generateButtonDisabled]

/-- Claim C3 witness with a rejecting client stub. -/
theorem generate_client_failure_witness :
    (handleGenerateClick encStub clErrStub bothSelectedState).1.error = some genFailMsg ∧
    genFailMsg ≠ "" ∧
    (handleGenerateClick encStub clErrStub bothSelectedState).1.generatedImage = none ∧
    (handleGenerateClick encStub clErrStub bothSelectedState).1.isLoading = false ∧
    generateButtonDisabled (handleGenerateClick encStub clErrStub bothSelectedState).1 =
      false ∧
    render (handleGenerateClick encStub clErrStub bothSelectedState).1 =
      [Display.errorMsg genFailMsg] :=
  generate_client_failure encStub clErrStub bothSelectedState fileA fileB
    ⟨"image/png".toList, "QUJD".toList⟩ ⟨"image/jpeg".toList, "QUJD".toList⟩
    "network" rfl rfl rfl rfl rfl

/-- Claim C7 counterexample: selecting a new file in a Succeeded state keeps
the previous result, and in a Failed state keeps the previous error — neither
is cleared as the claim requires. -/
theorem file_select_keeps_result_cex :
    (handleFileChange objectURLStub Which.child fileA succeededState).generatedImage =
      some "data:image/png;base64,AAA=" ∧
    (handleFileChange objectURLStub Which.child fileA failedState).error =
      some genFailMsg := by
  exact ⟨rfl, rfl⟩

/-- Claim C7 (amended): a new file selection replaces the corresponding photo
and preview and touches nothing else — in particular the previous result and
the previous error persist until the next generation trigger. -/
theorem file_select_updates_only_photo (objectURL : File → String) (f : File)
    (s : AppState) :
    (∀ w, (handleFileChange objectURL w f s).generatedImage = s.generatedImage ∧
      (handleFileChange objectURL w f s).error = s.error ∧
      (handleFileChange objectURL w f s).isLoading = s.isLoading) ∧
    (handleFileChange objectURL Which.child f s).childPhoto = some f ∧
    (handleFileChange objectURL Which.child f s).childPhotoPreview =
      some (objectURL f) ∧
    (handleFileChange objectURL Which.child f s).adultPhoto = s.adultPhoto ∧
    (handleFileChange objectURL Which.adult f s).adultPhoto = some f ∧
    (handleFileChange objectURL Which.adult f s).adultPhotoPreview =
      some (objectURL f) ∧
    (handleFileChange objectURL Which.adult f s).childPhoto = s.childPhoto := by
  refine ⟨fun w => ?_, rfl, rfl, rfl, rfl, rfl, rfl⟩
  cases w <;> simp [handleFileChange]

/-- Claim C8: the generation client is awaited only when both encodings
resolved; if either encoding rejects, the run ends Failed with zero client
calls. -/
theorem request_after_encodings (enc : File → Except String ImageData)
    (cl : ImageData → ImageData → Except String String) (s : AppState)
    (child adult : File)
    (hc : s.childPhoto = some child) (ha : s.adultPhoto = some adult) :
    ((handleGenerateClick enc cl s).2.clientCalls ≠ 0 →
      isErr (enc child) = false ∧ isErr (enc adult) = false) ∧
    ((isErr (enc child) = true ∨ isErr (enc adult) = true) →
      (handleGenerateClick enc cl s).2.clientCalls = 0 ∧
      (handleGenerateClick enc cl s).1.error = some genFailMsg ∧
      (handleGenerateClick enc cl s).1.generatedImage = none ∧
      (handleGenerateClick enc cl s).1.isLoading = false) := by
  constructor
  · intro hcalls
    rcases h1 : enc child with e | cd
    · exact absurd (by simp [handleGenerateClick, hc, ha, h1]) hcalls
    rcases h2 : enc adult with e | ad
    · exact absurd (by simp [handleGenerateClick, hc, ha, h1, h2]) hcalls
    · simp [isErr, h1, h2]
  · intro hfail
    rcases h1 : enc child with e | cd
    · simp [handleGenerateClick, hc, ha, h1, beginGenerate]
    rcases h2 : enc adult with e | ad
    · simp [handleGenerateClick, hc, ha, h1, h2, beginGenerate]
    · exfalso
      rcases hfail with hf | hf <;> simp [isErr, h1, h2] at hf

/-- Claim C8 witness with a rejecting encoder stub. -/
theorem request_after_encodings_witness :
    ((handleGenerateClick encErrStub clOkStub bothSelectedState).2.clientCalls ≠ 0 →
      isErr (encErrStub fileA) = false ∧ isErr (encErrStub fileB) = false) ∧
    ((isErr (encErrStub fileA) = true ∨ isErr (encErrStub fileB) = true) →
      (handleGenerateClick encErrStub clOkStub bothSelectedState).2.clientCalls = 0 ∧
      (handleGenerateClick encErrStub clOkStub bothSelectedState).1.error =
        some genFailMsg ∧
      (handleGenerateClick encErrStub clOkStub bothSelectedState).1.generatedImage =
        none ∧
      (handleGenerateClick encErrStub clOkStub bothSelectedState).1.isLoading = false) :=
  request_after_encodings encErrStub clOkStub bothSelectedState fileA fileB rfl rfl

/-- While the loading flag is set, no error and no result is stored. -/
theorem reachable_loading_inv (objectURL : File → String) (s : AppState)
    (h : Reachable objectURL s) :
    s.isLoading = true → s.error = none ∧ s.generatedImage = none := by
  induction h with
  | refl => intro hcontra; cases hcontra
  | tail _ hstep ih =>
      cases hstep with
      | select w files =>
          cases files with
          | nil => exact ih
          | cons f t =>
              cases w <;>
                simp only [handleInputChange, handleFileChange] <;>
                exact fun hl => ih hl
      | generateBegin hd =>
          intro _
          exact ⟨rfl, rfl⟩
      | finishOk url hl =>
          intro hcontra
          cases hcontra
      | finishErr hl =>
          intro hcontra
          cases hcontra

/-- Claim C9: in every reachable state exactly one of the four lifecycle
displays (spinner, error, image, placeholder) is rendered, and the
synchronous prefix of a new attempt clears the previous result and error
while entering pending. -/
theorem lifecycle_exclusive (objectURL : File → String) (s : AppState)
    (h : Reachable objectURL s) :
    (render s).length = 1 ∧
    (beginGenerate s).error = none ∧ (beginGenerate s).generatedImage = none ∧
    (beginGenerate s).isLoading = true := by
  refine ⟨?_, rfl, rfl, rfl⟩
  cases hl : s.isLoading with
  | true =>
      have hinv := reachable_loading_inv objectURL s h hl
      simp [render, hl, hinv.1, hinv.2]
  | false =>
      cases he : s.error with
      | some m => simp [render, hl, he]
      | none =>
          cases hg : s.generatedImage with
          | some u => simp [render, hl, he, hg]
          | none => simp [render, hl, he, hg]

/-- Claim C9 witness at the initial state. -/
theorem lifecycle_exclusive_witness :
    (render initState).length = 1 ∧
    (beginGenerate initState).error = none ∧
    (beginGenerate initState).generatedImage = none ∧
    (beginGenerate initState).isLoading = true :=
  lifecycle_exclusive objectURLStub initState Relation.ReflTransGen.refl

/-- A single step never clears a selected photo. -/
theorem step_photos_mono (objectURL : File → String) (s s2 : AppState)
    (h : Step objectURL s s2) :
    (s.childPhoto.isSome = true → s2.childPhoto.isSome = true) ∧
    (s.adultPhoto.isSome = true → s2.adultPhoto.isSome = true) := by
  cases h with
  | select w files =>
      cases files with
      | nil => exact ⟨id, id⟩
      | cons f t =>
          cases w <;> simp [handleInputChange, handleFileChange]
  | generateBegin hd => exact ⟨id, id⟩
  | finishOk url hl => exact ⟨id, id⟩
  | finishErr hl => exact ⟨id, id⟩

/-- From a state with both photos selected, a generation trigger always passes
validation and enters pending. -/
theorem handleGenerateClick_enteredPending (enc : File → Except String ImageData)
    (cl : ImageData → ImageData → Except String String) (s : AppState)
    (hc : s.childPhoto.isSome = true) (ha : s.adultPhoto.isSome = true) :
    (handleGenerateClick enc cl s).2.enteredPending = true := by
  rcases hcs : s.childPhoto with _ | child
  · rw [hcs] at hc
    cases hc
  rcases has : s.adultPhoto with _ | adult
  · rw [has] at ha
    cases ha
  rcases h1 : enc child with e | cd
  · simp [handleGenerateClick, hcs, has, h1]
  rcases h2 : enc adult with e | ad
  · simp [handleGenerateClick, hcs, has, h1, h2]
  rcases h3 : cl cd ad with e | v
  · simp [handleGenerateClick, hcs, has, h1, h2, h3]
  · simp [handleGenerateClick, hcs, has, h1, h2, h3]

/-- Claim C10: photo selections are never cleared by any sequence of events
(an empty selection event is ignored), so once both photos are selected the
validation branch of the generation trigger can never fire again. -/
theorem photos_never_cleared (objectURL : File → String)
    (enc : File → Except String ImageData)
    (cl : ImageData → ImageData → Except String String) (w : Which)
    (s s2 : AppState)
    (h : Relation.ReflTransGen (Step objectURL) s s2)
    (hc : s.childPhoto.isSome = true) (ha : s.adultPhoto.isSome = true) :
    s2.childPhoto.isSome = true ∧ s2.adultPhoto.isSome = true ∧
    handleInputChange objectURL w [] s2 = s2 ∧
    (handleGenerateClick enc cl s2).2.enteredPending = true := by
  have hmono : s2.childPhoto.isSome = true ∧ s2.adultPhoto.isSome = true := by
    induction h with
    | refl => exact ⟨hc, ha⟩
    | tail _ hstep ih =>
        have hm := step_photos_mono _ _ _ hstep
        exact ⟨hm.1 ih.1, hm.2 ih.2⟩
  exact ⟨hmono.1, hmono.2, rfl,
    handleGenerateClick_enteredPending enc cl s2 hmono.1 hmono.2⟩

/-- Claim C10 witness at a both-selected state. -/
theorem photos_never_cleared_witness :
    bothSelectedState.childPhoto.isSome = true ∧
    bothSelectedState.adultPhoto.isSome = true ∧
    handleInputChange objectURLStub Which.child [] bothSelectedState =
      bothSelectedState ∧
    (handleGenerateClick encStub clOkStub bothSelectedState).2.enteredPending = true :=
  photos_never_cleared objectURLStub encStub clOkStub Which.child
    bothSelectedState bothSelectedState Relation.ReflTransGen.refl rfl rfl

end Hugging
